import Mathlib

/-!
Verification of the usage-aggregate store of the Gemini usage integration
(`custom_components/ha_gemini_usage/coordinator.py` and `sensor.py`).

Timestamps are modelled as Python `datetime` values: a proleptic-Gregorian
day ordinal (`date.toordinal`, day 1 = 0001-01-01) together with a
time-of-day in microseconds.  Python compares datetimes field-lexicographically,
which for valid dates coincides with comparing (ordinal, time-of-day) pairs;
`timedelta(days = k)` addition adds `k` to the ordinal, `weekday()` is
`(toordinal + 6) % 7` with Monday = 0, and `replace(day := 1)` moves to the
first day of the current month.  The calendar functions below (`toOrdinal`,
`ofOrdinal`) implement the Gregorian calendar directly and are proved to be
mutually inverse, so field reads such as `.month` are faithful.
-/

/-- Gregorian leap-year test (`calendar.isleap` / CPython `_is_leap`). -/
def isLeap (y : Nat) : Bool :=
  y % 4 == 0 && (y % 100 != 0 || y % 400 == 0)

/-- Number of days in month `m` of year `y` (CPython `_days_in_month`). -/
def daysInMonth (y m : Nat) : Nat :=
  if m = 2 then (if isLeap y then 29 else 28)
  else if m = 4 ∨ m = 6 ∨ m = 9 ∨ m = 11 then 30
  else 31

/-- Number of days in year `y`. -/
def daysInYear (y : Nat) : Nat :=
  if isLeap y then 366 else 365

/-- Days in year `y` strictly before month `m` (CPython `_days_before_month`). -/
def daysBeforeMonth (y : Nat) : Nat → Nat
  | 0 => 0
  | 1 => 0
  | m + 1 => daysBeforeMonth y m + daysInMonth y m

/-- Days strictly before January 1 of year `y`, counting from year 1
(CPython `_days_before_year`). -/
def daysBeforeYear : Nat → Nat
  | 0 => 0
  | 1 => 0
  | y + 1 => daysBeforeYear y + daysInYear y

/-- Proleptic-Gregorian ordinal of the date `(y, m, d)`
(CPython `_ymd2ord`): 0001-01-01 has ordinal 1. -/
def toOrdinal (y m d : Nat) : Nat :=
  daysBeforeYear y + daysBeforeMonth y m + d

/-- Locate the year containing day-of-era `n` counted from year `y0`
(fuelled linear scan; fuel `n` always suffices since every year has
at least 365 days). Returns the year and the 1-based day within it. -/
def findYear : Nat → Nat → Nat → Nat × Nat
  | 0, y, n => (y, n)
  | fuel + 1, y, n =>
    if n ≤ daysInYear y then (y, n) else findYear fuel (y + 1) (n - daysInYear y)

/-- Locate the month of year `y` containing day-of-year `n`, scanning from
month `m0`.  Returns the month and the 1-based day within it. -/
def findMonth : Nat → Nat → Nat → Nat → Nat × Nat
  | 0, _, m, n => (m, n)
  | fuel + 1, y, m, n =>
    if n ≤ daysInMonth y m then (m, n) else findMonth fuel y (m + 1) (n - daysInMonth y m)

/-- A calendar date. -/
structure Date where
  year : Nat
  month : Nat
  day : Nat
deriving DecidableEq, Repr

/-- Date of a proleptic-Gregorian ordinal (CPython `_ord2ymd`, implemented
as a verified linear scan instead of the 400-year-cycle arithmetic). -/
def ofOrdinal (n : Nat) : Date :=
  let p := findYear n 1 n
  let q := findMonth 12 p.1 1 p.2
  ⟨p.1, q.1, q.2⟩

/-- Validity of a calendar date, as enforced by Python's `datetime`. -/
def validDate (dt : Date) : Prop :=
  1 ≤ dt.year ∧ 1 ≤ dt.month ∧ dt.month ≤ 12 ∧ 1 ≤ dt.day ∧ dt.day ≤ daysInMonth dt.year dt.month

instance (dt : Date) : Decidable (validDate dt) := by
  unfold validDate; exact inferInstance

/-- A Python `datetime.datetime` instant: proleptic-Gregorian day ordinal
plus time of day in microseconds. -/
structure DateTime where
  ordinal : Nat
  tod : Nat
deriving DecidableEq, Repr

/-- Python datetime comparison `a <= b` (field-lexicographic, which equals
lexicographic comparison of (ordinal, time-of-day)). -/
def dtLe (a b : DateTime) : Prop :=
  a.ordinal < b.ordinal ∨ (a.ordinal = b.ordinal ∧ a.tod ≤ b.tod)

instance (a b : DateTime) : Decidable (dtLe a b) := by
  unfold dtLe; exact inferInstance

/-- Python `dt + timedelta(days = k)`: the time of day is unchanged. -/
def addDays (dt : DateTime) (k : Nat) : DateTime :=
  ⟨dt.ordinal + k, dt.tod⟩

/-- The `month` field of a datetime. -/
def DateTime.month (dt : DateTime) : Nat :=
  (ofOrdinal dt.ordinal).month

/-- The `year` field of a datetime. -/
def DateTime.year (dt : DateTime) : Nat :=
  (ofOrdinal dt.ordinal).year

/-- The `day` (of month) field of a datetime. -/
def DateTime.day (dt : DateTime) : Nat :=
  (ofOrdinal dt.ordinal).day

/-- Python `datetime.weekday()`: `(toordinal + 6) % 7`, Monday = 0. -/
def DateTime.weekday (dt : DateTime) : Nat :=
  (dt.ordinal + 6) % 7

/-- `get_period_start` from `coordinator.py`:
daily truncates the time of day; weekly is the daily start minus
`weekday()` days; monthly is `replace(day := 1)` with the time truncated;
any other tag returns `now` unchanged. -/
def get_period_start (period : String) (now : DateTime) : DateTime :=
  if period = "daily" then ⟨now.ordinal, 0⟩
  else if period = "weekly" then ⟨now.ordinal - now.weekday, 0⟩
  else if period = "monthly" then
    ⟨toOrdinal (ofOrdinal now.ordinal).year (ofOrdinal now.ordinal).month 1, 0⟩
  else now

/-- Per-model token counters (one value of the `models` defaultdict). -/
structure ModelStats where
  input_tokens : Nat
  output_tokens : Nat
  total_tokens : Nat
  daily_input_tokens : Nat
  daily_output_tokens : Nat
  daily_total_tokens : Nat
  weekly_input_tokens : Nat
  weekly_output_tokens : Nat
  weekly_total_tokens : Nat
  monthly_input_tokens : Nat
  monthly_output_tokens : Nat
  monthly_total_tokens : Nat
deriving DecidableEq, Repr

/-- The all-zero default entry produced by the `defaultdict` factory. -/
def defaultModelStats : ModelStats :=
  ⟨0, 0, 0, 0, 0, 0, 0, 0, 0, 0, 0, 0⟩

/-- The full `usage_data` state owned by the coordinator.  The `models`
mapping is an insertion-ordered association list, as a Python dict is. -/
structure UsageData where
  total_requests : Nat
  daily_requests : Nat
  weekly_requests : Nat
  monthly_requests : Nat
  last_reset_daily : DateTime
  last_reset_weekly : DateTime
  last_reset_monthly : DateTime
  models : List (String × ModelStats)
deriving DecidableEq, Repr

/-- Dictionary lookup on the `models` association list. -/
def dictLookup : List (String × ModelStats) → String → Option ModelStats
  | [], _ => none
  | (k, v) :: rest, key => if k = key then some v else dictLookup rest key

/-- `defaultdict.__getitem__` state effect: a missing key is inserted with
the default value (auto-vivification); a present key leaves the dict alone. -/
def dictGetitem (d : List (String × ModelStats)) (key : String) :
    List (String × ModelStats) :=
  if (dictLookup d key).isSome then d else d ++ [(key, defaultModelStats)]

/-- In-place mutation of the entry stored under `key` (keys are unique in a
Python dict, so only the one entry is affected). -/
def dictSetAt : List (String × ModelStats) → String → (ModelStats → ModelStats) →
    List (String × ModelStats)
  | [], _, _ => []
  | (a, b) :: rest, key, f =>
    if a = key then (a, f b) :: dictSetAt rest key f else (a, b) :: dictSetAt rest key f

/-- The keys of the `models` mapping, in insertion order. -/
def dictKeys (d : List (String × ModelStats)) : List String :=
  d.map (fun p => p.1)

/-- The coordinator state built in `__init__`: all counters zero, the three
`last_reset_*` fields initialised from `get_period_start`, no models. -/
def initUsageData (now : DateTime) : UsageData :=
  { total_requests := 0
    daily_requests := 0
    weekly_requests := 0
    monthly_requests := 0
    last_reset_daily := get_period_start "daily" now
    last_reset_weekly := get_period_start "weekly" now
    last_reset_monthly := get_period_start "monthly" now
    models := [] }

/-- Zero the three `daily_*` token fields of a model entry. -/
def resetDaily (m : ModelStats) : ModelStats :=
  { m with daily_input_tokens := 0, daily_output_tokens := 0, daily_total_tokens := 0 }

/-- Zero the three `weekly_*` token fields of a model entry. -/
def resetWeekly (m : ModelStats) : ModelStats :=
  { m with weekly_input_tokens := 0, weekly_output_tokens := 0, weekly_total_tokens := 0 }

/-- Zero the three `monthly_*` token fields of a model entry. -/
def resetMonthly (m : ModelStats) : ModelStats :=
  { m with monthly_input_tokens := 0, monthly_output_tokens := 0, monthly_total_tokens := 0 }

/-- `GeminiUsageDataUpdateCoordinator._reset_if_needed`, with the instant
`now` (read from the clock in Python) passed explicitly.  The three checks
run in order: daily fires when `now >= last_reset_daily + timedelta(days=1)`,
weekly when `now >= last_reset_weekly + timedelta(weeks=1)`, monthly when
`now.month != last_reset_monthly.month`. -/
def reset_if_needed (s : UsageData) (now : DateTime) : UsageData :=
  let s1 :=
    if dtLe (addDays s.last_reset_daily 1) now then
      { s with last_reset_daily := get_period_start "daily" now
               daily_requests := 0
               models := s.models.map (fun p => (p.1, resetDaily p.2)) }
    else s
  let s2 :=
    if dtLe (addDays s1.last_reset_weekly 7) now then
      { s1 with last_reset_weekly := get_period_start "weekly" now
                weekly_requests := 0
                models := s1.models.map (fun p => (p.1, resetWeekly p.2)) }
    else s1
  if now.month ≠ s2.last_reset_monthly.month then
    { s2 with last_reset_monthly := get_period_start "monthly" now
              monthly_requests := 0
              models := s2.models.map (fun p => (p.1, resetMonthly p.2)) }
  else s2

/-- The `usage_metadata` attribute of a Gemini response; each token count
may be absent (`getattr(usage, field, 0)` then yields 0). -/
structure UsageMetadata where
  prompt_token_count : Option Nat
  candidates_token_count : Option Nat
  total_token_count : Option Nat
deriving DecidableEq, Repr

/-- A Gemini API result: `usage_metadata = none` models an object without
the `usage_metadata` attribute (`hasattr` is false). -/
structure ApiResult where
  usage_metadata : Option UsageMetadata
deriving DecidableEq, Repr

/-- Add reported token counts to the lifetime fields and to all three
periods' fields of a model entry (the body of `update_usage_stats`). -/
def addTokens (m : ModelStats) (i o t : Nat) : ModelStats :=
  { m with
    input_tokens := m.input_tokens + i
    output_tokens := m.output_tokens + o
    total_tokens := m.total_tokens + t
    daily_input_tokens := m.daily_input_tokens + i
    daily_output_tokens := m.daily_output_tokens + o
    daily_total_tokens := m.daily_total_tokens + t
    weekly_input_tokens := m.weekly_input_tokens + i
    weekly_output_tokens := m.weekly_output_tokens + o
    weekly_total_tokens := m.weekly_total_tokens + t
    monthly_input_tokens := m.monthly_input_tokens + i
    monthly_output_tokens := m.monthly_output_tokens + o
    monthly_total_tokens := m.monthly_total_tokens + t }

/-- `GeminiUsageDataUpdateCoordinator.update_usage_stats`.  Without a
`usage_metadata` attribute the call returns immediately; otherwise it runs
`_reset_if_needed`, bumps the four request counters, and adds the (possibly
defaulted-to-0) token counts to the model's entry, creating it through the
defaultdict if absent. -/
def update_usage_stats (s : UsageData) (model_name : String) (result : ApiResult)
    (now : DateTime) : UsageData :=
  match result.usage_metadata with
  | none => s
  | some usage =>
    let s0 := reset_if_needed s now
    let inTok := usage.prompt_token_count.getD 0
    let outTok := usage.candidates_token_count.getD 0
    let totTok := usage.total_token_count.getD 0
    let s1 := { s0 with
                total_requests := s0.total_requests + 1
                daily_requests := s0.daily_requests + 1
                weekly_requests := s0.weekly_requests + 1
                monthly_requests := s0.monthly_requests + 1 }
    let models1 := dictGetitem s1.models model_name
    let models2 := dictSetAt models1 model_name (fun m => addTokens m inTok outTok totTok)
    { s1 with models := models2 }

/-- `_async_update_data`: the scheduled refresh runs `_reset_if_needed` and
returns `usage_data` itself (by reference) as the snapshot. -/
def async_update_data (s : UsageData) (now : DateTime) : UsageData :=
  reset_if_needed s now

/-- Read a `ModelStats` field by its dictionary key, as the inner
`dict.get(f"...")` of the sensors does. -/
def modelStatsGet (m : ModelStats) (key : String) : Option Nat :=
  if key = "input_tokens" then some m.input_tokens
  else if key = "output_tokens" then some m.output_tokens
  else if key = "total_tokens" then some m.total_tokens
  else if key = "daily_input_tokens" then some m.daily_input_tokens
  else if key = "daily_output_tokens" then some m.daily_output_tokens
  else if key = "daily_total_tokens" then some m.daily_total_tokens
  else if key = "weekly_input_tokens" then some m.weekly_input_tokens
  else if key = "weekly_output_tokens" then some m.weekly_output_tokens
  else if key = "weekly_total_tokens" then some m.weekly_total_tokens
  else if key = "monthly_input_tokens" then some m.monthly_input_tokens
  else if key = "monthly_output_tokens" then some m.monthly_output_tokens
  else if key = "monthly_total_tokens" then some m.monthly_total_tokens
  else none

/-- `ModelTokenSensor.native_value`: evaluates
`coordinator.data["models"][model_name].get(f"{token_type_key}_tokens")`.
The outer `[model_name]` is a defaultdict access, so it returns both the
value read and the store state after the access. -/
def sensor_native_value (s : UsageData) (model_name token_type_key : String) :
    Option Nat × UsageData :=
  let models1 := dictGetitem s.models model_name
  let stats := (dictLookup models1 model_name).getD defaultModelStats
  (modelStatsGet stats (token_type_key ++ "_tokens"), { s with models := models1 })

/-- Total days of the `k` consecutive years starting at `y0`. -/
def sumDaysY (y0 : Nat) : Nat → Nat
  | 0 => 0
  | k + 1 => daysInYear y0 + sumDaysY (y0 + 1) k

/-- Total days of the `k` consecutive months of year `y` starting at `m0`. -/
def sumDaysM (y m0 : Nat) : Nat → Nat
  | 0 => 0
  | k + 1 => daysInMonth y m0 + sumDaysM y (m0 + 1) k


/-- The firing condition of the daily branch of `_reset_if_needed`:
`now >= last_reset_daily + timedelta(days=1)`. -/
def condDaily (s : UsageData) (now : DateTime) : Prop :=
  dtLe (addDays s.last_reset_daily 1) now

/-- The firing condition of the weekly branch:
`now >= last_reset_weekly + timedelta(weeks=1)`. -/
def condWeekly (s : UsageData) (now : DateTime) : Prop :=
  dtLe (addDays s.last_reset_weekly 7) now

/-- The firing condition of the monthly branch:
`now.month != last_reset_monthly.month`. -/
def condMonthly (s : UsageData) (now : DateTime) : Prop :=
  now.month ≠ s.last_reset_monthly.month

instance (s : UsageData) (now : DateTime) : Decidable (condDaily s now) := by
  unfold condDaily; exact inferInstance

instance (s : UsageData) (now : DateTime) : Decidable (condWeekly s now) := by
  unfold condWeekly; exact inferInstance

instance (s : UsageData) (now : DateTime) : Decidable (condMonthly s now) := by
  unfold condMonthly; exact inferInstance

/-- The per-model effect of one `_reset_if_needed` run whose three branches
fired according to `cd`, `cw`, `cm`. -/
def applyResets (cd cw cm : Prop) [Decidable cd] [Decidable cw] [Decidable cm]
    (m : ModelStats) : ModelStats :=
  let m1 := if cd then resetDaily m else m
  let m2 := if cw then resetWeekly m1 else m1
  if cm then resetMonthly m2 else m2

/-- The lifetime (never-reset) token fields recorded for model `k`
(all-zero default when the model has no entry). -/
def lifetimeTriple (s : UsageData) (k : String) : Nat × Nat × Nat :=
  let m := (dictLookup s.models k).getD defaultModelStats
  (m.input_tokens, m.output_tokens, m.total_tokens)

/-- The daily token fields recorded for model `k`. -/
def dailyTriple (s : UsageData) (k : String) : Nat × Nat × Nat :=
  let m := (dictLookup s.models k).getD defaultModelStats
  (m.daily_input_tokens, m.daily_output_tokens, m.daily_total_tokens)

/-- The weekly token fields recorded for model `k`. -/
def weeklyTriple (s : UsageData) (k : String) : Nat × Nat × Nat :=
  let m := (dictLookup s.models k).getD defaultModelStats
  (m.weekly_input_tokens, m.weekly_output_tokens, m.weekly_total_tokens)

/-- The monthly token fields recorded for model `k`. -/
def monthlyTriple (s : UsageData) (k : String) : Nat × Nat × Nat :=
  let m := (dictLookup s.models k).getD defaultModelStats
  (m.monthly_input_tokens, m.monthly_output_tokens, m.monthly_total_tokens)

/-- The input-token count the code extracts from usage metadata:
`getattr(usage, "prompt_token_count", 0)`. -/
def promptTok (u : UsageMetadata) : Nat := u.prompt_token_count.getD 0

/-- The output-token count: `getattr(usage, "candidates_token_count", 0)`. -/
def candTok (u : UsageMetadata) : Nat := u.candidates_token_count.getD 0

/-- The total-token count: `getattr(usage, "total_token_count", 0)`. -/
def totTok (u : UsageMetadata) : Nat := u.total_token_count.getD 0

/-- The lifetime input-token count recorded for model `k`. -/
def lifetimeIn (s : UsageData) (k : String) : Nat :=
  ((dictLookup s.models k).getD defaultModelStats).input_tokens

/-- The lifetime output-token count recorded for model `k`. -/
def lifetimeOut (s : UsageData) (k : String) : Nat :=
  ((dictLookup s.models k).getD defaultModelStats).output_tokens

/-- The lifetime total-token count recorded for model `k`. -/
def lifetimeTot (s : UsageData) (k : String) : Nat :=
  ((dictLookup s.models k).getD defaultModelStats).total_tokens

/-- One reported API call: model name, the usage metadata carried by the
response, and the instant of the report. -/
structure CallRec where
  model : String
  usage : UsageMetadata
  moment : DateTime

/-- Replay a sequence of reports through `update_usage_stats`, each one
carrying usage metadata. -/
def runCalls (s : UsageData) : List CallRec → UsageData
  | [] => s
  | c :: rest => runCalls (update_usage_stats s c.model ⟨some c.usage⟩ c.moment) rest

/-- Sum of `f` over the calls reported for model `mname`. -/
def sumTokFor (f : UsageMetadata → Nat) (mname : String) : List CallRec → Nat
  | [] => 0
  | c :: rest => (if c.model = mname then f c.usage else 0) + sumTokFor f mname rest

/-- 2024-01-15T10:00:00Z (a Monday): creation instant of the scenario store. -/
def dtA0 : DateTime := ⟨toOrdinal 2024 1 15, 36000000000⟩

/-- 2024-01-15T10:05:00Z: instant of the first scenario call. -/
def dtA1 : DateTime := ⟨toOrdinal 2024 1 15, 36300000000⟩

/-- 2024-01-16T10:00:00Z: instant of the second scenario call, past the
daily boundary. -/
def dtB : DateTime := ⟨toOrdinal 2024 1 16, 36000000000⟩

/-- Scenario store after `recordUsage("model-x", 10, 5, 15)` on Jan 15. -/
def storeA : UsageData :=
  update_usage_stats (initUsageData dtA0) "model-x" ⟨some ⟨some 10, some 5, some 15⟩⟩ dtA1

/-- Scenario store after the second call `recordUsage("model-x", 1, 1, 2)`
one day later. -/
def storeB : UsageData :=
  update_usage_stats storeA "model-x" ⟨some ⟨some 1, some 1, some 2⟩⟩ dtB

/-- A small one-model store used to instantiate general theorems. -/
def sampleStoreX : UsageData :=
  update_usage_stats (initUsageData ⟨1, 0⟩) "model-x" ⟨some ⟨some 1, some 1, some 2⟩⟩ ⟨1, 0⟩

/-- The contract of `get_period_start` at one instant: daily truncates the
time of day, weekly further backs up `weekday()` days to the most recent
Monday 00:00:00, monthly is the first of the current month at 00:00:00, and
any unknown tag is the identity. -/
def periodStartSpec (now : DateTime) : Prop :=
  get_period_start "daily" now = ⟨now.ordinal, 0⟩ ∧
  get_period_start "weekly" now = ⟨now.ordinal - now.weekday, 0⟩ ∧
  (get_period_start "weekly" now).weekday = 0 ∧
  (get_period_start "weekly" now).ordinal ≤ now.ordinal ∧
  now.ordinal < (get_period_start "weekly" now).ordinal + 7 ∧
  (get_period_start "monthly" now).month = now.month ∧
  (get_period_start "monthly" now).year = now.year ∧
  (get_period_start "monthly" now).day = 1 ∧
  (get_period_start "monthly" now).tod = 0 ∧
  (∀ p : String, p ≠ "daily" → p ≠ "weekly" → p ≠ "monthly" → get_period_start p now = now)

/-- Idempotence of reconciliation at one instant, plus the no-op property
when no boundary has been crossed. -/
def reconcileIdemAt (s : UsageData) (now : DateTime) : Prop :=
  reset_if_needed (reset_if_needed s now) now = reset_if_needed s now ∧
  (¬ condDaily s now → ¬ condWeekly s now → ¬ condMonthly s now → reset_if_needed s now = s)

/-- The contract of one `recordUsage` report carrying usage metadata:
reconcile first, then bump the four request counters by one, then add the
reported token counts to the (lazily created) entry of this model, leaving
every other model's entry as reconciliation left it. -/
def recordEffect (s : UsageData) (mname : String) (u : UsageMetadata) (now : DateTime) : Prop :=
  (update_usage_stats s mname ⟨some u⟩ now).total_requests
      = (reset_if_needed s now).total_requests + 1 ∧
  (update_usage_stats s mname ⟨some u⟩ now).daily_requests
      = (reset_if_needed s now).daily_requests + 1 ∧
  (update_usage_stats s mname ⟨some u⟩ now).weekly_requests
      = (reset_if_needed s now).weekly_requests + 1 ∧
  (update_usage_stats s mname ⟨some u⟩ now).monthly_requests
      = (reset_if_needed s now).monthly_requests + 1 ∧
  dictLookup (update_usage_stats s mname ⟨some u⟩ now).models mname
      = some (addTokens
          ((dictLookup (reset_if_needed s now).models mname).getD defaultModelStats)
          (promptTok u) (candTok u) (totTok u)) ∧
  (∀ k, k ≠ mname → dictLookup (update_usage_stats s mname ⟨some u⟩ now).models k
      = dictLookup (reset_if_needed s now).models k)

/-- The effect of a single catch-up reconciliation in which all three
periods roll over at once, with every boundary computed from the final
`now` (no intermediate replay). -/
def catchupEffect (s : UsageData) (now : DateTime) : Prop :=
  reset_if_needed s now =
    { s with daily_requests := 0
             weekly_requests := 0
             monthly_requests := 0
             last_reset_daily := get_period_start "daily" now
             last_reset_weekly := get_period_start "weekly" now
             last_reset_monthly := get_period_start "monthly" now
             models := s.models.map (fun p =>
               (p.1, resetMonthly (resetWeekly (resetDaily p.2)))) }

/-- Effect and frame of a reconciliation in which only the daily branch
fires: exactly the daily fields are reset, everything else is untouched. -/
def dailyOnlyEffect (s : UsageData) (now : DateTime) : Prop :=
  (reset_if_needed s now).daily_requests = 0 ∧
  (reset_if_needed s now).last_reset_daily = get_period_start "daily" now ∧
  (∀ k, dailyTriple (reset_if_needed s now) k = (0, 0, 0)) ∧
  (reset_if_needed s now).total_requests = s.total_requests ∧
  (reset_if_needed s now).weekly_requests = s.weekly_requests ∧
  (reset_if_needed s now).monthly_requests = s.monthly_requests ∧
  (reset_if_needed s now).last_reset_weekly = s.last_reset_weekly ∧
  (reset_if_needed s now).last_reset_monthly = s.last_reset_monthly ∧
  dictKeys (reset_if_needed s now).models = dictKeys s.models ∧
  (∀ k, lifetimeTriple (reset_if_needed s now) k = lifetimeTriple s k ∧
        weeklyTriple (reset_if_needed s now) k = weeklyTriple s k ∧
        monthlyTriple (reset_if_needed s now) k = monthlyTriple s k)

/-- Effect and frame of a reconciliation in which only the weekly branch
fires. -/
def weeklyOnlyEffect (s : UsageData) (now : DateTime) : Prop :=
  (reset_if_needed s now).weekly_requests = 0 ∧
  (reset_if_needed s now).last_reset_weekly = get_period_start "weekly" now ∧
  (∀ k, weeklyTriple (reset_if_needed s now) k = (0, 0, 0)) ∧
  (reset_if_needed s now).total_requests = s.total_requests ∧
  (reset_if_needed s now).daily_requests = s.daily_requests ∧
  (reset_if_needed s now).monthly_requests = s.monthly_requests ∧
  (reset_if_needed s now).last_reset_daily = s.last_reset_daily ∧
  (reset_if_needed s now).last_reset_monthly = s.last_reset_monthly ∧
  dictKeys (reset_if_needed s now).models = dictKeys s.models ∧
  (∀ k, lifetimeTriple (reset_if_needed s now) k = lifetimeTriple s k ∧
        dailyTriple (reset_if_needed s now) k = dailyTriple s k ∧
        monthlyTriple (reset_if_needed s now) k = monthlyTriple s k)

/-- Effect and frame of a reconciliation in which only the monthly branch
fires. -/
def monthlyOnlyEffect (s : UsageData) (now : DateTime) : Prop :=
  (reset_if_needed s now).monthly_requests = 0 ∧
  (reset_if_needed s now).last_reset_monthly = get_period_start "monthly" now ∧
  (∀ k, monthlyTriple (reset_if_needed s now) k = (0, 0, 0)) ∧
  (reset_if_needed s now).total_requests = s.total_requests ∧
  (reset_if_needed s now).daily_requests = s.daily_requests ∧
  (reset_if_needed s now).weekly_requests = s.weekly_requests ∧
  (reset_if_needed s now).last_reset_daily = s.last_reset_daily ∧
  (reset_if_needed s now).last_reset_weekly = s.last_reset_weekly ∧
  dictKeys (reset_if_needed s now).models = dictKeys s.models ∧
  (∀ k, lifetimeTriple (reset_if_needed s now) k = lifetimeTriple s k ∧
        dailyTriple (reset_if_needed s now) k = dailyTriple s k ∧
        weeklyTriple (reset_if_needed s now) k = weeklyTriple s k)

/-- The monthly fields survive a reconciliation untouched. -/
def monthlySkipEffect (s : UsageData) (now : DateTime) : Prop :=
  (reset_if_needed s now).monthly_requests = s.monthly_requests ∧
  (reset_if_needed s now).last_reset_monthly = s.last_reset_monthly ∧
  (∀ k, monthlyTriple (reset_if_needed s now) k = monthlyTriple s k)

/-- The zero-token record written when usage metadata is present but all
three token-count fields are missing: counters still advance by one and the
model's entry is still created (with nothing added to it). -/
def zeroRecordEffect (s : UsageData) (mname : String) (now : DateTime) : Prop :=
  update_usage_stats s mname ⟨some ⟨none, none, none⟩⟩ now =
    { total_requests := (reset_if_needed s now).total_requests + 1
      daily_requests := (reset_if_needed s now).daily_requests + 1
      weekly_requests := (reset_if_needed s now).weekly_requests + 1
      monthly_requests := (reset_if_needed s now).monthly_requests + 1
      last_reset_daily := (reset_if_needed s now).last_reset_daily
      last_reset_weekly := (reset_if_needed s now).last_reset_weekly
      last_reset_monthly := (reset_if_needed s now).last_reset_monthly
      models := dictGetitem (reset_if_needed s now).models mname }

/-! ## Calendar lemmas -/

theorem daysInYear_bounds (y : Nat) : 365 ≤ daysInYear y ∧ daysInYear y ≤ 366 := by
  unfold daysInYear; split <;> omega

theorem daysInMonth_bounds (y m : Nat) : 28 ≤ daysInMonth y m ∧ daysInMonth y m ≤ 31 := by
  unfold daysInMonth
  split
  · split <;> omega
  · split <;> omega

theorem sumDaysY_append (k j y0 : Nat) :
    sumDaysY y0 (k + j) = sumDaysY y0 k + sumDaysY (y0 + k) j := by
  induction k generalizing y0 with
  | zero => simp [sumDaysY]
  | succ k ih =>
    have h1 : k + 1 + j = (k + j) + 1 := by omega
    rw [h1]
    show daysInYear y0 + sumDaysY (y0 + 1) (k + j) = sumDaysY y0 (k + 1) + sumDaysY (y0 + (k + 1)) j
    rw [ih (y0 + 1)]
    have h2 : y0 + 1 + k = y0 + (k + 1) := by omega
    rw [h2]
    show _ = daysInYear y0 + sumDaysY (y0 + 1) k + sumDaysY (y0 + (k + 1)) j
    omega

theorem sumDaysY_succ_right (y0 k : Nat) :
    sumDaysY y0 (k + 1) = sumDaysY y0 k + daysInYear (y0 + k) := by
  rw [sumDaysY_append k 1 y0]
  simp [sumDaysY]

theorem sumDaysM_append (k j y m0 : Nat) :
    sumDaysM y m0 (k + j) = sumDaysM y m0 k + sumDaysM y (m0 + k) j := by
  induction k generalizing m0 with
  | zero => simp [sumDaysM]
  | succ k ih =>
    have h1 : k + 1 + j = (k + j) + 1 := by omega
    rw [h1]
    show daysInMonth y m0 + sumDaysM y (m0 + 1) (k + j)
        = sumDaysM y m0 (k + 1) + sumDaysM y (m0 + (k + 1)) j
    rw [ih (m0 + 1)]
    have h2 : m0 + 1 + k = m0 + (k + 1) := by omega
    rw [h2]
    show _ = daysInMonth y m0 + sumDaysM y (m0 + 1) k + sumDaysM y (m0 + (k + 1)) j
    omega

theorem sumDaysM_succ_right (y m0 k : Nat) :
    sumDaysM y m0 (k + 1) = sumDaysM y m0 k + daysInMonth y (m0 + k) := by
  rw [sumDaysM_append k 1 y m0]
  simp [sumDaysM]

theorem daysBeforeYear_eq_sum (y : Nat) : daysBeforeYear (y + 1) = sumDaysY 1 y := by
  induction y with
  | zero => rfl
  | succ y ih =>
    have h : daysBeforeYear (y + 2) = daysBeforeYear (y + 1) + daysInYear (y + 1) := rfl
    rw [h, ih, sumDaysY_succ_right]
    have h2 : 1 + y = y + 1 := by omega
    rw [h2]

theorem daysBeforeMonth_eq_sum (y m : Nat) : daysBeforeMonth y (m + 1) = sumDaysM y 1 m := by
  induction m with
  | zero => rfl
  | succ m ih =>
    have h : daysBeforeMonth y (m + 2) = daysBeforeMonth y (m + 1) + daysInMonth y (m + 1) := rfl
    rw [h, ih, sumDaysM_succ_right]
    have h2 : 1 + m = m + 1 := by omega
    rw [h2]

theorem daysBeforeMonth_13 (y : Nat) : daysBeforeMonth y 13 = daysInYear y := by
  unfold daysInYear
  cases h : isLeap y <;> simp [daysBeforeMonth, daysInMonth, h]

theorem daysInYear_eq_monthsum (y : Nat) : daysInYear y = sumDaysM y 1 12 := by
  rw [← daysBeforeMonth_13 y]
  exact daysBeforeMonth_eq_sum y 12

theorem daysBeforeYear_ge (y : Nat) : y - 1 ≤ daysBeforeYear y := by
  induction y with
  | zero => simp
  | succ y ih =>
    cases y with
    | zero => simp [daysBeforeYear]
    | succ y =>
      have h : daysBeforeYear (y + 1 + 1) = daysBeforeYear (y + 1) + daysInYear (y + 1) := rfl
      have hb := daysInYear_bounds (y + 1)
      omega

theorem findYear_spec (k : Nat) : ∀ fuel y0 dy, 1 ≤ dy → dy ≤ daysInYear (y0 + k) →
    k ≤ fuel → findYear fuel y0 (sumDaysY y0 k + dy) = (y0 + k, dy) := by
  induction k with
  | zero =>
    intro fuel y0 dy h1 h2 _
    match fuel with
    | 0 => simp [findYear, sumDaysY]
    | fuel + 1 =>
      simp only [sumDaysY, Nat.zero_add, Nat.add_zero] at h2 ⊢
      simp [findYear, h2]
  | succ k ih =>
    intro fuel y0 dy h1 h2 hf
    match fuel with
    | 0 => omega
    | fuel + 1 =>
      have hy := daysInYear_bounds y0
      have hsum : sumDaysY y0 (k + 1) + dy = daysInYear y0 + (sumDaysY (y0 + 1) k + dy) := by
        show daysInYear y0 + sumDaysY (y0 + 1) k + dy = _
        omega
      rw [hsum]
      have hgt : ¬ (daysInYear y0 + (sumDaysY (y0 + 1) k + dy) ≤ daysInYear y0) := by omega
      simp only [findYear, if_neg hgt]
      have hsub : daysInYear y0 + (sumDaysY (y0 + 1) k + dy) - daysInYear y0
          = sumDaysY (y0 + 1) k + dy := by omega
      rw [hsub]
      have h2' : dy ≤ daysInYear (y0 + 1 + k) := by
        have : y0 + 1 + k = y0 + (k + 1) := by omega
        rw [this]; exact h2
      rw [ih fuel (y0 + 1) dy h1 h2' (by omega)]
      congr 1
      omega

theorem findYear_inv (fuel : Nat) : ∀ y0 n, 1 ≤ n → n ≤ fuel →
    ∃ k dy, findYear fuel y0 n = (y0 + k, dy) ∧ 1 ≤ dy ∧ dy ≤ daysInYear (y0 + k) ∧
      n = sumDaysY y0 k + dy := by
  induction fuel with
  | zero => intro y0 n h1 h2; omega
  | succ fuel ih =>
    intro y0 n h1 h2
    by_cases h : n ≤ daysInYear y0
    · exact ⟨0, n, by simp [findYear, h], h1, by simpa using h, by simp [sumDaysY]⟩
    · have hy := daysInYear_bounds y0
      simp only [findYear, if_neg h]
      obtain ⟨k, dy, heq, hdy1, hdy2, hn⟩ :=
        ih (y0 + 1) (n - daysInYear y0) (by omega) (by omega)
      refine ⟨k + 1, dy, ?_, hdy1, ?_, ?_⟩
      · rw [heq]; congr 1; omega
      · have : y0 + (k + 1) = y0 + 1 + k := by omega
        rw [this]; exact hdy2
      · show n = daysInYear y0 + sumDaysY (y0 + 1) k + dy
        omega

theorem findMonth_spec (k : Nat) : ∀ fuel y m0 d, 1 ≤ d → d ≤ daysInMonth y (m0 + k) →
    k ≤ fuel → findMonth fuel y m0 (sumDaysM y m0 k + d) = (m0 + k, d) := by
  induction k with
  | zero =>
    intro fuel y m0 d h1 h2 _
    match fuel with
    | 0 => simp [findMonth, sumDaysM]
    | fuel + 1 =>
      simp only [sumDaysM, Nat.zero_add, Nat.add_zero] at h2 ⊢
      simp [findMonth, h2]
  | succ k ih =>
    intro fuel y m0 d h1 h2 hf
    match fuel with
    | 0 => omega
    | fuel + 1 =>
      have hm := daysInMonth_bounds y m0
      have hsum : sumDaysM y m0 (k + 1) + d = daysInMonth y m0 + (sumDaysM y (m0 + 1) k + d) := by
        show daysInMonth y m0 + sumDaysM y (m0 + 1) k + d = _
        omega
      rw [hsum]
      have hgt : ¬ (daysInMonth y m0 + (sumDaysM y (m0 + 1) k + d) ≤ daysInMonth y m0) := by
        omega
      simp only [findMonth, if_neg hgt]
      have hsub : daysInMonth y m0 + (sumDaysM y (m0 + 1) k + d) - daysInMonth y m0
          = sumDaysM y (m0 + 1) k + d := by omega
      rw [hsub]
      have h2' : d ≤ daysInMonth y (m0 + 1 + k) := by
        have : m0 + 1 + k = m0 + (k + 1) := by omega
        rw [this]; exact h2
      rw [ih fuel y (m0 + 1) d h1 h2' (by omega)]
      congr 1
      omega

theorem findMonth_inv (fuel : Nat) : ∀ y m0 n, 1 ≤ n → n ≤ sumDaysM y m0 fuel →
    ∃ k d, findMonth fuel y m0 n = (m0 + k, d) ∧ k < fuel ∧ 1 ≤ d ∧
      d ≤ daysInMonth y (m0 + k) ∧ n = sumDaysM y m0 k + d := by
  induction fuel with
  | zero =>
    intro y m0 n h1 h2
    simp [sumDaysM] at h2
    omega
  | succ fuel ih =>
    intro y m0 n h1 h2
    by_cases h : n ≤ daysInMonth y m0
    · exact ⟨0, n, by simp [findMonth, h], by omega, h1, by simpa using h, by simp [sumDaysM]⟩
    · have hm := daysInMonth_bounds y m0
      simp only [findMonth, if_neg h]
      have h2' : n - daysInMonth y m0 ≤ sumDaysM y (m0 + 1) fuel := by
        have hs : sumDaysM y m0 (fuel + 1) = daysInMonth y m0 + sumDaysM y (m0 + 1) fuel := rfl
        omega
      obtain ⟨k, d, heq, hk, hd1, hd2, hn⟩ := ih y (m0 + 1) (n - daysInMonth y m0) (by omega) h2'
      refine ⟨k + 1, d, ?_, by omega, hd1, ?_, ?_⟩
      · rw [heq]; congr 1; omega
      · have : m0 + (k + 1) = m0 + 1 + k := by omega
        rw [this]; exact hd2
      · show n = daysInMonth y m0 + sumDaysM y (m0 + 1) k + d
        omega

/-- Crossing to the date fields: `ofOrdinal` of a positive ordinal yields a
valid date whose `toOrdinal` is the original ordinal. -/
theorem ofOrdinal_spec (n : Nat) (h : 1 ≤ n) :
    validDate (ofOrdinal n) ∧
      toOrdinal (ofOrdinal n).year (ofOrdinal n).month (ofOrdinal n).day = n := by
  obtain ⟨k, dy, hfy, hdy1, hdy2, hn⟩ := findYear_inv n 1 n h (le_refl n)
  have hdy2' : dy ≤ sumDaysM (1 + k) 1 12 := by
    rw [← daysInYear_eq_monthsum]; exact hdy2
  obtain ⟨k2, d, hfm, hk2, hd1, hd2, hdy⟩ := findMonth_inv 12 (1 + k) 1 dy hdy1 hdy2'
  have hy : (ofOrdinal n).year = 1 + k := by
    unfold ofOrdinal; rw [hfy]
  have hm : (ofOrdinal n).month = 1 + k2 := by
    unfold ofOrdinal; rw [hfy]; simp only; rw [hfm]
  have hd : (ofOrdinal n).day = d := by
    unfold ofOrdinal; rw [hfy]; simp only; rw [hfm]
  constructor
  · refine ⟨?_, ?_, ?_, ?_, ?_⟩
    · rw [hy]; omega
    · rw [hm]; omega
    · rw [hm]; omega
    · rw [hd]; exact hd1
    · rw [hy, hm, hd]; exact hd2
  · rw [hy, hm, hd]
    unfold toOrdinal
    have e1 : daysBeforeYear (1 + k) = sumDaysY 1 k := by
      have : 1 + k = k + 1 := by omega
      rw [this]; exact daysBeforeYear_eq_sum k
    have e2 : daysBeforeMonth (1 + k) (1 + k2) = sumDaysM (1 + k) 1 k2 := by
      have : 1 + k2 = k2 + 1 := by omega
      rw [this]; exact daysBeforeMonth_eq_sum (1 + k) k2
    rw [e1, e2]
    omega

/-- `ofOrdinal` is a left inverse of `toOrdinal` on valid dates. -/
theorem ofOrdinal_toOrdinal (y m d : Nat) (hy : 1 ≤ y) (hm1 : 1 ≤ m) (hm2 : m ≤ 12)
    (hd1 : 1 ≤ d) (hd2 : d ≤ daysInMonth y m) :
    ofOrdinal (toOrdinal y m d) = ⟨y, m, d⟩ := by
  obtain ⟨y', rfl⟩ : ∃ y', y = y' + 1 := ⟨y - 1, by omega⟩
  obtain ⟨m', rfl⟩ : ∃ m', m = m' + 1 := ⟨m - 1, by omega⟩
  have hdy_le : sumDaysM (y' + 1) 1 m' + d ≤ daysInYear (y' + 1) := by
    have hstep : sumDaysM (y' + 1) 1 (m' + 1)
        = sumDaysM (y' + 1) 1 m' + daysInMonth (y' + 1) (1 + m') :=
      sumDaysM_succ_right (y' + 1) 1 m'
    have hdm : daysInMonth (y' + 1) (1 + m') = daysInMonth (y' + 1) (m' + 1) := by
      rw [Nat.add_comm 1 m']
    have hmono : sumDaysM (y' + 1) 1 (m' + 1) ≤ sumDaysM (y' + 1) 1 12 := by
      have hsplit := sumDaysM_append (m' + 1) (12 - (m' + 1)) (y' + 1) 1
      have he : (m' + 1) + (12 - (m' + 1)) = 12 := by omega
      rw [he] at hsplit
      omega
    have hiy := daysInYear_eq_monthsum (y' + 1)
    omega
  have e1 : daysBeforeYear (y' + 1) = sumDaysY 1 y' := daysBeforeYear_eq_sum y'
  have e2 : daysBeforeMonth (y' + 1) (m' + 1) = sumDaysM (y' + 1) 1 m' :=
    daysBeforeMonth_eq_sum (y' + 1) m'
  have hn : toOrdinal (y' + 1) (m' + 1) d = sumDaysY 1 y' + (sumDaysM (y' + 1) 1 m' + d) := by
    unfold toOrdinal
    omega
  have hfuel : y' ≤ toOrdinal (y' + 1) (m' + 1) d := by
    have hg := daysBeforeYear_ge (y' + 1)
    unfold toOrdinal
    omega
  have hfy : findYear (toOrdinal (y' + 1) (m' + 1) d) 1 (toOrdinal (y' + 1) (m' + 1) d)
      = (1 + y', sumDaysM (y' + 1) 1 m' + d) := by
    have hs := findYear_spec y' (toOrdinal (y' + 1) (m' + 1) d) 1
      (sumDaysM (y' + 1) 1 m' + d) (by omega)
      (by rw [Nat.add_comm 1 y']; exact hdy_le) hfuel
    rw [← hn] at hs
    exact hs
  have hfm : findMonth 12 (1 + y') 1 (sumDaysM (y' + 1) 1 m' + d) = (1 + m', d) := by
    rw [Nat.add_comm 1 y']
    exact findMonth_spec m' 12 (y' + 1) 1 d hd1
      (by rw [Nat.add_comm 1 m']; exact hd2) (by omega)
  unfold ofOrdinal
  rw [hfy]
  simp only
  rw [hfm]
  rw [Nat.add_comm 1 y', Nat.add_comm 1 m']

theorem daysBeforeYear_le_succ (b : Nat) : daysBeforeYear b ≤ daysBeforeYear (b + 1) := by
  cases b with
  | zero => simp [daysBeforeYear]
  | succ c =>
    have h : daysBeforeYear (c + 1 + 1) = daysBeforeYear (c + 1) + daysInYear (c + 1) := rfl
    omega

theorem daysBeforeYear_mono (a b : Nat) (hab : a ≤ b) : daysBeforeYear a ≤ daysBeforeYear b := by
  induction b with
  | zero =>
    have : a = 0 := by omega
    simp [this]
  | succ b ih =>
    rcases Nat.lt_or_ge a (b + 1) with hlt | hge
    · exact le_trans (ih (by omega)) (daysBeforeYear_le_succ b)
    · have : a = b + 1 := by omega
      simp [this]

theorem daysBeforeYear_succ_eq (y : Nat) (h : 1 ≤ y) :
    daysBeforeYear (y + 1) = daysBeforeYear y + daysInYear y := by
  obtain ⟨c, rfl⟩ : ∃ c, y = c + 1 := ⟨y - 1, by omega⟩
  rfl

theorem daysBeforeMonth_year_close (y y' m : Nat) (hm : m ≤ 13) :
    daysBeforeMonth y m ≤ daysBeforeMonth y' m + 1 := by
  interval_cases m <;>
    cases h : isLeap y <;> cases h' : isLeap y' <;>
      simp [daysBeforeMonth, daysInMonth, h, h']

/-- Moving 40 days forward always changes the calendar month number:
a month is 28 to 31 days long and twelve months are far more than 40 days. -/
theorem month_ne_of_add40 (n : Nat) (h : 1 ≤ n) :
    (ofOrdinal (n + 40)).month ≠ (ofOrdinal n).month := by
  obtain ⟨hv, hto⟩ := ofOrdinal_spec n h
  obtain ⟨hv', hto'⟩ := ofOrdinal_spec (n + 40) (by omega)
  generalize hA : ofOrdinal n = A at *
  generalize hB : ofOrdinal (n + 40) = B at *
  obtain ⟨Ya, Ma, Da⟩ := A
  obtain ⟨Yb, Mb, Db⟩ := B
  unfold validDate at hv hv'
  simp only at hv hv' hto hto' ⊢
  obtain ⟨hy1, hm1, hm2, hd1, hd2⟩ := hv
  obtain ⟨hy1', hm1', hm2', hd1', hd2'⟩ := hv'
  intro heq
  rw [heq] at hto' hd2'
  unfold toOrdinal at hto hto'
  have hdima := daysInMonth_bounds Ya Ma
  have hdimb := daysInMonth_bounds Yb Ma
  have hc1 := daysBeforeMonth_year_close Ya Yb Ma (by omega)
  have hc2 := daysBeforeMonth_year_close Yb Ya Ma (by omega)
  rcases Nat.lt_trichotomy Ya Yb with hlt | heqy | hgt
  · have hmono : daysBeforeYear (Ya + 1) ≤ daysBeforeYear Yb := daysBeforeYear_mono _ _ (by omega)
    have hsucc : daysBeforeYear (Ya + 1) = daysBeforeYear Ya + daysInYear Ya :=
      daysBeforeYear_succ_eq Ya hy1
    have hbnd := daysInYear_bounds Ya
    omega
  · subst heqy
    omega
  · have hmono : daysBeforeYear (Yb + 1) ≤ daysBeforeYear Ya := daysBeforeYear_mono _ _ (by omega)
    have hsucc : daysBeforeYear (Yb + 1) = daysBeforeYear Yb + daysInYear Yb :=
      daysBeforeYear_succ_eq Yb hy1'
    have hbnd := daysInYear_bounds Yb
    omega

theorem gps_daily_eq (now : DateTime) : get_period_start "daily" now = ⟨now.ordinal, 0⟩ := by
  simp [get_period_start]

theorem gps_weekly_eq (now : DateTime) :
    get_period_start "weekly" now = ⟨now.ordinal - now.weekday, 0⟩ := by
  simp [get_period_start]

theorem gps_monthly_eq (now : DateTime) :
    get_period_start "monthly" now
      = ⟨toOrdinal (ofOrdinal now.ordinal).year (ofOrdinal now.ordinal).month 1, 0⟩ := by
  simp [get_period_start]

/-- The monthly period start keeps the year and month, has day 1, and a
zero time of day. -/
theorem gps_monthly_fields (now : DateTime) (h : 1 ≤ now.ordinal) :
    (get_period_start "monthly" now).month = now.month ∧
      (get_period_start "monthly" now).year = now.year ∧
      (get_period_start "monthly" now).day = 1 ∧
      (get_period_start "monthly" now).tod = 0 := by
  obtain ⟨hv, _⟩ := ofOrdinal_spec now.ordinal h
  unfold validDate at hv
  obtain ⟨hy1, hm1, hm2, _, _⟩ := hv
  have hdim := daysInMonth_bounds (ofOrdinal now.ordinal).year (ofOrdinal now.ordinal).month
  have hinv := ofOrdinal_toOrdinal (ofOrdinal now.ordinal).year (ofOrdinal now.ordinal).month 1
    hy1 hm1 hm2 (by omega) (by omega)
  rw [gps_monthly_eq]
  unfold DateTime.month DateTime.year DateTime.day
  simp only
  rw [hinv]
  exact ⟨rfl, rfl, rfl, trivial⟩

/-- The weekday index is at most 6, and for a real ordinal it is at most
`ordinal - 1`, so the Monday of the current week is a valid instant. -/
theorem weekday_bounds (dt : DateTime) (h : 1 ≤ dt.ordinal) :
    dt.weekday ≤ 6 ∧ dt.weekday ≤ dt.ordinal - 1 := by
  unfold DateTime.weekday
  omega

/-- The weekly period start lands on a Monday (weekday index 0). -/
theorem gps_weekly_monday (now : DateTime) (h : 1 ≤ now.ordinal) :
    (get_period_start "weekly" now).weekday = 0 := by
  rw [gps_weekly_eq]
  show (now.ordinal - (now.ordinal + 6) % 7 + 6) % 7 = 0
  omega

/-! ## Store-level helper definitions and lemmas -/

theorem map_pair_eta (l : List (String × ModelStats)) :
    (l.map fun p => (p.1, p.2)) = l := by
  induction l with
  | nil => rfl
  | cons p rest ih => simp [ih]

/-- Closed form of `_reset_if_needed`: each branch fires exactly on its
condition, resets its request counter, moves its `last_reset_*` to the
period start of `now`, and zeroes its per-model fields. -/
theorem reset_if_needed_eq (s : UsageData) (now : DateTime) :
    reset_if_needed s now =
      { total_requests := s.total_requests
        daily_requests := if condDaily s now then 0 else s.daily_requests
        weekly_requests := if condWeekly s now then 0 else s.weekly_requests
        monthly_requests := if condMonthly s now then 0 else s.monthly_requests
        last_reset_daily :=
          if condDaily s now then get_period_start "daily" now else s.last_reset_daily
        last_reset_weekly :=
          if condWeekly s now then get_period_start "weekly" now else s.last_reset_weekly
        last_reset_monthly :=
          if condMonthly s now then get_period_start "monthly" now else s.last_reset_monthly
        models := s.models.map (fun p =>
          (p.1, applyResets (condDaily s now) (condWeekly s now) (condMonthly s now) p.2)) } := by
  unfold reset_if_needed condDaily condWeekly condMonthly applyResets
  by_cases hd : dtLe (addDays s.last_reset_daily 1) now <;>
    by_cases hw : dtLe (addDays s.last_reset_weekly 7) now <;>
      by_cases hm : now.month ≠ s.last_reset_monthly.month <;>
        simp [hd, hw, hm, List.map_map, Function.comp, map_pair_eta]

theorem dictLookup_map (g : ModelStats → ModelStats) (l : List (String × ModelStats))
    (k : String) :
    dictLookup (l.map (fun p => (p.1, g p.2))) k = (dictLookup l k).map g := by
  induction l with
  | nil => rfl
  | cons p rest ih =>
    obtain ⟨a, b⟩ := p
    by_cases h : a = k <;> simp [dictLookup, h, ih]

theorem dictKeys_map (g : ModelStats → ModelStats) (l : List (String × ModelStats)) :
    dictKeys (l.map (fun p => (p.1, g p.2))) = dictKeys l := by
  induction l with
  | nil => rfl
  | cons p rest ih =>
    simp [dictKeys] at ih
    simp [dictKeys, ih]

theorem dictLookup_append (l1 l2 : List (String × ModelStats)) (k : String) :
    dictLookup (l1 ++ l2) k
      = if (dictLookup l1 k).isSome then dictLookup l1 k else dictLookup l2 k := by
  induction l1 with
  | nil => simp [dictLookup]
  | cons p rest ih =>
    obtain ⟨a, b⟩ := p
    by_cases h : a = k <;> simp [dictLookup, h, ih]

theorem dictLookup_getitem_self (d : List (String × ModelStats)) (k : String) :
    dictLookup (dictGetitem d k) k = some ((dictLookup d k).getD defaultModelStats) := by
  unfold dictGetitem
  cases h : dictLookup d k with
  | some v => simp [h]
  | none => simp [h, dictLookup_append, dictLookup]

theorem dictLookup_getitem_other (d : List (String × ModelStats)) (k k' : String)
    (h : k' ≠ k) :
    dictLookup (dictGetitem d k) k' = dictLookup d k' := by
  unfold dictGetitem
  split
  · rfl
  · rw [dictLookup_append]
    cases hx : dictLookup d k' with
    | some v => simp [hx]
    | none => simp [hx, dictLookup, Ne.symm h]

theorem dictLookup_setAt_self (d : List (String × ModelStats)) (k : String)
    (f : ModelStats → ModelStats) :
    dictLookup (dictSetAt d k f) k = (dictLookup d k).map f := by
  induction d with
  | nil => rfl
  | cons p rest ih =>
    obtain ⟨a, b⟩ := p
    by_cases h : a = k
    · subst h
      simp [dictSetAt, dictLookup, ih]
    · simp [dictSetAt, dictLookup, h, ih]

theorem dictLookup_setAt_other (d : List (String × ModelStats)) (k k' : String)
    (f : ModelStats → ModelStats) (h : k' ≠ k) :
    dictLookup (dictSetAt d k f) k' = dictLookup d k' := by
  induction d with
  | nil => rfl
  | cons p rest ih =>
    obtain ⟨a, b⟩ := p
    by_cases ha : a = k
    · subst ha
      simp [dictSetAt, dictLookup, Ne.symm h, ih]
    · simp [dictSetAt, dictLookup, ha, ih]

theorem dictKeys_getitem (d : List (String × ModelStats)) (k : String) :
    dictKeys (dictGetitem d k)
      = if (dictLookup d k).isSome then dictKeys d else dictKeys d ++ [k] := by
  unfold dictGetitem
  split <;> simp [dictKeys]

theorem dictKeys_setAt (d : List (String × ModelStats)) (k : String)
    (f : ModelStats → ModelStats) :
    dictKeys (dictSetAt d k f) = dictKeys d := by
  induction d with
  | nil => rfl
  | cons p rest ih =>
    obtain ⟨a, b⟩ := p
    by_cases h : a = k <;> simp [dictSetAt, dictKeys, h] <;> simp [dictKeys] at ih <;> exact ih

theorem applyResets_lifetime (cd cw cm : Prop) [Decidable cd] [Decidable cw] [Decidable cm]
    (m : ModelStats) :
    (applyResets cd cw cm m).input_tokens = m.input_tokens ∧
      (applyResets cd cw cm m).output_tokens = m.output_tokens ∧
      (applyResets cd cw cm m).total_tokens = m.total_tokens := by
  unfold applyResets
  by_cases hd : cd <;> by_cases hw : cw <;> by_cases hm : cm <;>
    simp [hd, hw, hm, resetDaily, resetWeekly, resetMonthly]

theorem applyResets_of_neg (cd cw cm : Prop) [Decidable cd] [Decidable cw] [Decidable cm]
    (hd : ¬ cd) (hw : ¬ cw) (hm : ¬ cm) (m : ModelStats) :
    applyResets cd cw cm m = m := by
  unfold applyResets
  simp [hd, hw, hm]

/-- Unfolding of `update_usage_stats` when usage metadata is present. -/
theorem update_some_eq (s : UsageData) (mname : String) (u : UsageMetadata) (now : DateTime) :
    update_usage_stats s mname ⟨some u⟩ now =
      { total_requests := (reset_if_needed s now).total_requests + 1
        daily_requests := (reset_if_needed s now).daily_requests + 1
        weekly_requests := (reset_if_needed s now).weekly_requests + 1
        monthly_requests := (reset_if_needed s now).monthly_requests + 1
        last_reset_daily := (reset_if_needed s now).last_reset_daily
        last_reset_weekly := (reset_if_needed s now).last_reset_weekly
        last_reset_monthly := (reset_if_needed s now).last_reset_monthly
        models := dictSetAt (dictGetitem (reset_if_needed s now).models mname) mname
          (fun m => addTokens m (u.prompt_token_count.getD 0)
            (u.candidates_token_count.getD 0) (u.total_token_count.getD 0)) } := rfl

/-- Unfolding of `update_usage_stats` when the result has no
`usage_metadata` attribute: the call is a no-op. -/
theorem update_none_eq (s : UsageData) (mname : String) (now : DateTime) :
    update_usage_stats s mname ⟨none⟩ now = s := rfl

/-- `_reset_if_needed` never changes `total_requests` or any model's
lifetime token fields, and preserves the set of model keys. -/
theorem reset_preserves_lifetime (s : UsageData) (now : DateTime) :
    (reset_if_needed s now).total_requests = s.total_requests ∧
      (∀ k, lifetimeTriple (reset_if_needed s now) k = lifetimeTriple s k) ∧
      dictKeys (reset_if_needed s now).models = dictKeys s.models := by
  rw [reset_if_needed_eq]
  refine ⟨rfl, ?_, ?_⟩
  · intro k
    unfold lifetimeTriple
    simp only [dictLookup_map]
    cases h : dictLookup s.models k with
    | none => simp
    | some m =>
      simp only [Option.map_some, Option.getD_some]
      have := applyResets_lifetime (condDaily s now) (condWeekly s now) (condMonthly s now) m
      simp [this.1, this.2.1, this.2.2]
  · exact dictKeys_map _ _

/-- Lookup of any key after `_reset_if_needed`, in terms of the lookup
before and the per-model reset. -/
theorem reset_lookup (s : UsageData) (now : DateTime) (k : String) :
    dictLookup (reset_if_needed s now).models k
      = (dictLookup s.models k).map
          (applyResets (condDaily s now) (condWeekly s now) (condMonthly s now)) := by
  rw [reset_if_needed_eq]
  exact dictLookup_map _ _ _

/-- Projections of the reconciled state. -/
theorem reset_lrd (s : UsageData) (now : DateTime) :
    (reset_if_needed s now).last_reset_daily
      = if condDaily s now then get_period_start "daily" now else s.last_reset_daily := by
  rw [reset_if_needed_eq]

theorem reset_lrw (s : UsageData) (now : DateTime) :
    (reset_if_needed s now).last_reset_weekly
      = if condWeekly s now then get_period_start "weekly" now else s.last_reset_weekly := by
  rw [reset_if_needed_eq]

theorem reset_lrm (s : UsageData) (now : DateTime) :
    (reset_if_needed s now).last_reset_monthly
      = if condMonthly s now then get_period_start "monthly" now else s.last_reset_monthly := by
  rw [reset_if_needed_eq]

/-- After a reconciliation at `now`, the daily condition cannot hold at the
same `now`: either it did not hold before, or `last_reset_daily` is now the
start of `now`'s day and `now` is strictly before the next day. -/
theorem condDaily_after (s : UsageData) (now : DateTime) :
    ¬ condDaily (reset_if_needed s now) now := by
  unfold condDaily
  rw [reset_lrd]
  by_cases hd : condDaily s now
  · rw [if_pos hd, gps_daily_eq]
    unfold addDays dtLe
    simp only
    omega
  · rw [if_neg hd]
    exact hd

/-- After a reconciliation at `now`, the weekly condition cannot hold at the
same `now`: the new `last_reset_weekly` is at most 6 days before `now`. -/
theorem condWeekly_after (s : UsageData) (now : DateTime) :
    ¬ condWeekly (reset_if_needed s now) now := by
  unfold condWeekly
  rw [reset_lrw]
  by_cases hw : condWeekly s now
  · rw [if_pos hw, gps_weekly_eq]
    unfold addDays dtLe DateTime.weekday
    simp only
    omega
  · rw [if_neg hw]
    exact hw

/-- After a reconciliation at `now`, the monthly condition cannot hold at
the same `now`: the new `last_reset_monthly` is in `now`'s month. -/
theorem condMonthly_after (s : UsageData) (now : DateTime) (h : 1 ≤ now.ordinal) :
    ¬ condMonthly (reset_if_needed s now) now := by
  unfold condMonthly
  rw [reset_lrm]
  by_cases hm : condMonthly s now
  · rw [if_pos hm]
    have hmm := (gps_monthly_fields now h).1
    rw [hmm]
    simp
  · rw [if_neg hm]
    exact hm

/-- When no reset condition holds, `_reset_if_needed` is the identity. -/
theorem reset_of_no_cond (s : UsageData) (now : DateTime)
    (hd : ¬ condDaily s now) (hw : ¬ condWeekly s now) (hm : ¬ condMonthly s now) :
    reset_if_needed s now = s := by
  rw [reset_if_needed_eq]
  simp only [if_neg hd, if_neg hw, if_neg hm]
  have he : (s.models.map fun p => (p.1, applyResets (condDaily s now) (condWeekly s now)
      (condMonthly s now) p.2)) = s.models := by
    have hfun : ∀ p : String × ModelStats,
        (p.1, applyResets (condDaily s now) (condWeekly s now) (condMonthly s now) p.2)
          = (p.1, p.2) := by
      intro p
      rw [applyResets_of_neg _ _ _ hd hw hm]
    calc (s.models.map fun p => (p.1, applyResets (condDaily s now) (condWeekly s now)
          (condMonthly s now) p.2))
        = s.models.map (fun p => (p.1, p.2)) := by
          apply List.map_congr_left
          intro p _
          exact hfun p
      _ = s.models := map_pair_eta s.models
  rw [he]

theorem isLeap_iff (y : Nat) : isLeap y = true ↔ (y % 4 = 0 ∧ (y % 100 ≠ 0 ∨ y % 400 = 0)) := by
  simp [isLeap]

theorem daysBeforeYear_closed (y : Nat) :
    daysBeforeYear (y + 1) + y / 100 = 365 * y + y / 4 + y / 400 := by
  induction y with
  | zero => rfl
  | succ y ih =>
    have hstep : daysBeforeYear (y + 1 + 1) = daysBeforeYear (y + 1) + daysInYear (y + 1) := rfl
    have hiy : daysInYear (y + 1) = if isLeap (y + 1) then 366 else 365 := rfl
    by_cases hp : (y + 1) % 4 = 0 ∧ ((y + 1) % 100 ≠ 0 ∨ (y + 1) % 400 = 0)
    · have hl : isLeap (y + 1) = true := (isLeap_iff (y + 1)).mpr hp
      rw [hl] at hiy
      simp at hiy
      obtain ⟨h4, h100⟩ := hp
      have hq4 : (y + 1) / 4 = y / 4 + 1 := by omega
      rcases h100 with h100 | h400
      · have hq100 : (y + 1) / 100 = y / 100 := by omega
        have h400ne : (y + 1) % 400 ≠ 0 := by omega
        have hq400 : (y + 1) / 400 = y / 400 := by omega
        omega
      · have h100z : (y + 1) % 100 = 0 := by omega
        have hq100 : (y + 1) / 100 = y / 100 + 1 := by omega
        have hq400 : (y + 1) / 400 = y / 400 + 1 := by omega
        omega
    · have hl : isLeap (y + 1) = false := by
        cases hIs : isLeap (y + 1)
        · rfl
        · exact absurd ((isLeap_iff (y + 1)).mp hIs) hp
      rw [hl] at hiy
      simp at hiy
      push_neg at hp
      by_cases h4 : (y + 1) % 4 = 0
      · obtain ⟨h100z, h400ne⟩ := hp h4
        have hq4 : (y + 1) / 4 = y / 4 + 1 := by omega
        have hq100 : (y + 1) / 100 = y / 100 + 1 := by omega
        have hq400 : (y + 1) / 400 = y / 400 := by omega
        omega
      · have hq4 : (y + 1) / 4 = y / 4 := by omega
        have h100ne : (y + 1) % 100 ≠ 0 := by omega
        have hq100 : (y + 1) / 100 = y / 100 := by omega
        have h400ne : (y + 1) % 400 ≠ 0 := by omega
        have hq400 : (y + 1) / 400 = y / 400 := by omega
        omega

theorem dby2024 : daysBeforeYear 2024 = 738885 := by
  have h := daysBeforeYear_closed 2023
  norm_num at h
  omega

theorem update_counters (s : UsageData) (mname : String) (u : UsageMetadata) (now : DateTime) :
    (update_usage_stats s mname ⟨some u⟩ now).total_requests
        = (reset_if_needed s now).total_requests + 1 ∧
      (update_usage_stats s mname ⟨some u⟩ now).daily_requests
        = (reset_if_needed s now).daily_requests + 1 ∧
      (update_usage_stats s mname ⟨some u⟩ now).weekly_requests
        = (reset_if_needed s now).weekly_requests + 1 ∧
      (update_usage_stats s mname ⟨some u⟩ now).monthly_requests
        = (reset_if_needed s now).monthly_requests + 1 ∧
      (update_usage_stats s mname ⟨some u⟩ now).last_reset_daily
        = (reset_if_needed s now).last_reset_daily ∧
      (update_usage_stats s mname ⟨some u⟩ now).last_reset_weekly
        = (reset_if_needed s now).last_reset_weekly ∧
      (update_usage_stats s mname ⟨some u⟩ now).last_reset_monthly
        = (reset_if_needed s now).last_reset_monthly := by
  rw [update_some_eq]
  exact ⟨rfl, rfl, rfl, rfl, rfl, rfl, rfl⟩

theorem update_lookup_self (s : UsageData) (mname : String) (u : UsageMetadata)
    (now : DateTime) :
    dictLookup (update_usage_stats s mname ⟨some u⟩ now).models mname
      = some (addTokens
          ((dictLookup (reset_if_needed s now).models mname).getD defaultModelStats)
          (promptTok u) (candTok u) (totTok u)) := by
  rw [update_some_eq]
  simp only
  rw [dictLookup_setAt_self, dictLookup_getitem_self]
  rfl

theorem update_lookup_other (s : UsageData) (mname k : String) (u : UsageMetadata)
    (now : DateTime) (h : k ≠ mname) :
    dictLookup (update_usage_stats s mname ⟨some u⟩ now).models k
      = dictLookup (reset_if_needed s now).models k := by
  rw [update_some_eq]
  simp only
  rw [dictLookup_setAt_other _ _ _ _ h, dictLookup_getitem_other _ _ _ h]

theorem reset_lifetime_scalar (s : UsageData) (now : DateTime) (k : String) :
    lifetimeIn (reset_if_needed s now) k = lifetimeIn s k ∧
      lifetimeOut (reset_if_needed s now) k = lifetimeOut s k ∧
      lifetimeTot (reset_if_needed s now) k = lifetimeTot s k := by
  unfold lifetimeIn lifetimeOut lifetimeTot
  rw [reset_lookup]
  cases h : dictLookup s.models k with
  | none => simp
  | some m =>
    simp only [Option.map_some, Option.getD_some]
    have ha := applyResets_lifetime (condDaily s now) (condWeekly s now) (condMonthly s now) m
    exact ⟨ha.1, ha.2.1, ha.2.2⟩

theorem update_lifetime_scalar (s : UsageData) (mname : String) (u : UsageMetadata)
    (now : DateTime) (k : String) :
    lifetimeIn (update_usage_stats s mname ⟨some u⟩ now) k
        = lifetimeIn s k + (if k = mname then promptTok u else 0) ∧
      lifetimeOut (update_usage_stats s mname ⟨some u⟩ now) k
        = lifetimeOut s k + (if k = mname then candTok u else 0) ∧
      lifetimeTot (update_usage_stats s mname ⟨some u⟩ now) k
        = lifetimeTot s k + (if k = mname then totTok u else 0) := by
  have hr := reset_lifetime_scalar s now k
  by_cases hk : k = mname
  · subst hk
    unfold lifetimeIn lifetimeOut lifetimeTot at hr ⊢
    rw [update_lookup_self]
    simp [addTokens]
    omega
  · unfold lifetimeIn lifetimeOut lifetimeTot at hr ⊢
    rw [update_lookup_other s mname k u now hk]
    simp only [if_neg hk, Nat.add_zero]
    exact hr

theorem runCalls_spec (calls : List CallRec) : ∀ s : UsageData,
    (runCalls s calls).total_requests = s.total_requests + calls.length ∧
      ∀ mname : String,
        lifetimeIn (runCalls s calls) mname
            = lifetimeIn s mname + sumTokFor promptTok mname calls ∧
          lifetimeOut (runCalls s calls) mname
            = lifetimeOut s mname + sumTokFor candTok mname calls ∧
          lifetimeTot (runCalls s calls) mname
            = lifetimeTot s mname + sumTokFor totTok mname calls := by
  induction calls with
  | nil =>
    intro s
    exact ⟨rfl, fun mname => ⟨rfl, rfl, rfl⟩⟩
  | cons c rest ih =>
    intro s
    have hrc : runCalls s (c :: rest)
        = runCalls (update_usage_stats s c.model ⟨some c.usage⟩ c.moment) rest := rfl
    have hstep := update_counters s c.model c.usage c.moment
    have hres := (reset_preserves_lifetime s c.moment).1
    have hr := ih (update_usage_stats s c.model ⟨some c.usage⟩ c.moment)
    constructor
    · rw [hrc, hr.1, hstep.1, hres]
      simp [List.length_cons]
      omega
    · intro mname
      obtain ⟨h1i, h1o, h1t⟩ := hr.2 mname
      obtain ⟨h2i, h2o, h2t⟩ := update_lifetime_scalar s c.model c.usage c.moment mname
      have hsum : ∀ f : UsageMetadata → Nat, sumTokFor f mname (c :: rest)
          = (if c.model = mname then f c.usage else 0) + sumTokFor f mname rest :=
        fun f => rfl
      rw [hrc]
      by_cases hm : c.model = mname
      · have hm' : mname = c.model := hm.symm
        rw [hsum promptTok, hsum candTok, hsum totTok]
        simp only [if_pos hm]
        rw [if_pos hm'] at h2i h2o h2t
        refine ⟨?_, ?_, ?_⟩ <;> omega
      · have hm' : ¬ (mname = c.model) := fun h => hm h.symm
        rw [hsum promptTok, hsum candTok, hsum totTok]
        simp only [if_neg hm]
        rw [if_neg hm'] at h2i h2o h2t
        refine ⟨?_, ?_, ?_⟩ <;> omega

theorem reset_requests (s : UsageData) (now : DateTime) :
    (reset_if_needed s now).daily_requests
        = (if condDaily s now then 0 else s.daily_requests) ∧
      (reset_if_needed s now).weekly_requests
        = (if condWeekly s now then 0 else s.weekly_requests) ∧
      (reset_if_needed s now).monthly_requests
        = (if condMonthly s now then 0 else s.monthly_requests) := by
  rw [reset_if_needed_eq]
  exact ⟨rfl, rfl, rfl⟩

theorem applyResets_fields (cd cw cm : Prop) [Decidable cd] [Decidable cw] [Decidable cm]
    (m : ModelStats) :
    (applyResets cd cw cm m).input_tokens = m.input_tokens ∧
    (applyResets cd cw cm m).output_tokens = m.output_tokens ∧
    (applyResets cd cw cm m).total_tokens = m.total_tokens ∧
    (applyResets cd cw cm m).daily_input_tokens = (if cd then 0 else m.daily_input_tokens) ∧
    (applyResets cd cw cm m).daily_output_tokens = (if cd then 0 else m.daily_output_tokens) ∧
    (applyResets cd cw cm m).daily_total_tokens = (if cd then 0 else m.daily_total_tokens) ∧
    (applyResets cd cw cm m).weekly_input_tokens = (if cw then 0 else m.weekly_input_tokens) ∧
    (applyResets cd cw cm m).weekly_output_tokens = (if cw then 0 else m.weekly_output_tokens) ∧
    (applyResets cd cw cm m).weekly_total_tokens = (if cw then 0 else m.weekly_total_tokens) ∧
    (applyResets cd cw cm m).monthly_input_tokens = (if cm then 0 else m.monthly_input_tokens) ∧
    (applyResets cd cw cm m).monthly_output_tokens = (if cm then 0 else m.monthly_output_tokens) ∧
    (applyResets cd cw cm m).monthly_total_tokens = (if cm then 0 else m.monthly_total_tokens) := by
  unfold applyResets
  by_cases hd : cd <;> by_cases hw : cw <;> by_cases hm : cm <;>
    simp [hd, hw, hm, resetDaily, resetWeekly, resetMonthly]

theorem scenarioB_facts :
    storeB.daily_requests = 1 ∧ storeB.total_requests = 2 ∧
      lifetimeIn storeB "model-x" = 11 ∧
      ((dictLookup storeB.models "model-x").getD defaultModelStats).daily_input_tokens = 1 := by
  have hsucc : toOrdinal 2024 1 16 = toOrdinal 2024 1 15 + 1 := by
    unfold toOrdinal
    omega
  have hBeq : storeB = update_usage_stats storeA "model-x" ⟨some ⟨some 1, some 1, some 2⟩⟩ dtB :=
    rfl
  have hAeq : storeA
      = update_usage_stats (initUsageData dtA0) "model-x" ⟨some ⟨some 10, some 5, some 15⟩⟩ dtA1 :=
    rfl
  have hcA := update_counters (initUsageData dtA0) "model-x" ⟨some 10, some 5, some 15⟩ dtA1
  have hcB := update_counters storeA "model-x" ⟨some 1, some 1, some 2⟩ dtB
  have hlrdA : storeA.last_reset_daily = ⟨toOrdinal 2024 1 15, 0⟩ := by
    rw [hAeq]
    rw [hcA.2.2.2.2.1, reset_lrd]
    have hinit : (initUsageData dtA0).last_reset_daily = ⟨toOrdinal 2024 1 15, 0⟩ := by
      show get_period_start "daily" dtA0 = _
      rw [gps_daily_eq]
      rfl
    split
    · rw [gps_daily_eq]
      rfl
    · exact hinit
  have hcdB : condDaily storeA dtB := by
    unfold condDaily
    rw [hlrdA]
    unfold addDays dtLe
    simp only
    right
    constructor
    · show toOrdinal 2024 1 15 + 1 = dtB.ordinal
      show toOrdinal 2024 1 15 + 1 = toOrdinal 2024 1 16
      omega
    · show (0 : Nat) ≤ dtB.tod
      omega
  constructor
  · -- daily_requests
    rw [hBeq, hcB.2.1, (reset_requests storeA dtB).1, if_pos hcdB]
  constructor
  · -- total_requests
    rw [hBeq, hcB.1, (reset_preserves_lifetime storeA dtB).1, hAeq, hcA.1,
      (reset_preserves_lifetime (initUsageData dtA0) dtA1).1]
    rfl
  constructor
  · -- lifetime input tokens
    have h2 := (update_lifetime_scalar storeA "model-x" ⟨some 1, some 1, some 2⟩ dtB "model-x").1
    have h1 := (update_lifetime_scalar (initUsageData dtA0) "model-x" ⟨some 10, some 5, some 15⟩
      dtA1 "model-x").1
    rw [hBeq, h2, hAeq, h1]
    simp [promptTok, lifetimeIn, initUsageData, dictLookup, defaultModelStats]
  · -- daily input tokens after the rollover
    have hlook := update_lookup_self storeA "model-x" ⟨some 1, some 1, some 2⟩ dtB
    rw [hBeq, hlook]
    rw [reset_lookup]
    cases h : dictLookup storeA.models "model-x" with
    | none => simp [addTokens, defaultModelStats, promptTok]
    | some m =>
      have hf := (applyResets_fields (condDaily storeA dtB) (condWeekly storeA dtB)
        (condMonthly storeA dtB) m).2.2.2.1
      rw [if_pos hcdB] at hf
      simp [addTokens, promptTok, hf]

theorem addTokens_zero (m : ModelStats) : addTokens m 0 0 0 = m := rfl

theorem dictSetAt_of_id (d : List (String × ModelStats)) (key : String)
    (f : ModelStats → ModelStats) (hf : ∀ x, f x = x) : dictSetAt d key f = d := by
  induction d with
  | nil => rfl
  | cons p rest ih =>
    obtain ⟨a, b⟩ := p
    by_cases h : a = key <;> simp [dictSetAt, h, ih, hf]

theorem zeroRecord (s : UsageData) (mname : String) (now : DateTime) :
    zeroRecordEffect s mname now := by
  unfold zeroRecordEffect
  rw [update_some_eq]
  congr 1
  apply dictSetAt_of_id
  intro x
  rfl

theorem sensor_pure (s : UsageData) (mname tk : String)
    (h : (dictLookup s.models mname).isSome) :
    (sensor_native_value s mname tk).2 = s := by
  unfold sensor_native_value dictGetitem
  simp [h]

theorem update_keys (s : UsageData) (mname : String) (u : UsageMetadata) (now : DateTime) :
    dictKeys (update_usage_stats s mname ⟨some u⟩ now).models
      = (if (dictLookup s.models mname).isSome then dictKeys s.models
         else dictKeys s.models ++ [mname]) := by
  rw [update_some_eq]
  simp only
  rw [dictKeys_setAt, dictKeys_getitem, reset_lookup]
  have hk := (reset_preserves_lifetime s now).2.2
  cases h : dictLookup s.models mname with
  | none => simp [hk]
  | some m => simp [hk]

theorem triple_after_reset (s : UsageData) (now : DateTime) (k : String) :
    dailyTriple (reset_if_needed s now) k
        = (if condDaily s now then ((0, 0, 0) : Nat × Nat × Nat) else dailyTriple s k) ∧
      weeklyTriple (reset_if_needed s now) k
        = (if condWeekly s now then ((0, 0, 0) : Nat × Nat × Nat) else weeklyTriple s k) ∧
      monthlyTriple (reset_if_needed s now) k
        = (if condMonthly s now then ((0, 0, 0) : Nat × Nat × Nat) else monthlyTriple s k) := by
  unfold dailyTriple weeklyTriple monthlyTriple
  rw [reset_lookup]
  cases h : dictLookup s.models k with
  | none => simp [defaultModelStats]
  | some m =>
    simp only [Option.map_some', Option.getD_some]
    obtain ⟨_, _, _, f4, f5, f6, f7, f8, f9, f10, f11, f12⟩ :=
      applyResets_fields (condDaily s now) (condWeekly s now) (condMonthly s now) m
    rw [f4, f5, f6, f7, f8, f9, f10, f11, f12]
    refine ⟨?_, ?_, ?_⟩ <;> split <;> rename_i hc <;> simp [hc]

/-! ## Claim theorems -/

/-- C1: for every store state and instant `now`, `_reset_if_needed` fires
the daily reset exactly when `now >= last_reset_daily + 1 day`, the weekly
reset exactly when `now >= last_reset_weekly + 7 days`, and the monthly
reset exactly when `now.month != last_reset_monthly.month`; on each fire it
sets the corresponding `last_reset_*` to `periodStart(P, now)`, zeroes that
period's request counter, and zeroes that period's three token fields in
every model entry (and does nothing else). -/
theorem claim1_reset_rollover_spec (s : UsageData) (now : DateTime) :
    reset_if_needed s now =
      { total_requests := s.total_requests
        daily_requests := if condDaily s now then 0 else s.daily_requests
        weekly_requests := if condWeekly s now then 0 else s.weekly_requests
        monthly_requests := if condMonthly s now then 0 else s.monthly_requests
        last_reset_daily :=
          if condDaily s now then get_period_start "daily" now else s.last_reset_daily
        last_reset_weekly :=
          if condWeekly s now then get_period_start "weekly" now else s.last_reset_weekly
        last_reset_monthly :=
          if condMonthly s now then get_period_start "monthly" now else s.last_reset_monthly
        models := s.models.map (fun p =>
          (p.1, applyResets (condDaily s now) (condWeekly s now) (condMonthly s now) p.2)) } :=
  reset_if_needed_eq s now

/-- C2: a `recordUsage` report with usage metadata first reconciles,
then increments the four request counters by exactly one, lazily creates an
all-zero entry for the model if absent, and adds the reported token counts
to that model's lifetime and periodic fields; in particular Scenario B
(second call one day later) yields `daily_requests = 1`,
`total_requests = 2`, lifetime `input_tokens = 11` and
`daily_input_tokens = 1`. -/
theorem claim2_record_usage_spec :
    (∀ (s : UsageData) (mname : String) (u : UsageMetadata) (now : DateTime),
        recordEffect s mname u now) ∧
      (storeB.daily_requests = 1 ∧ storeB.total_requests = 2 ∧
        lifetimeIn storeB "model-x" = 11 ∧
        ((dictLookup storeB.models "model-x").getD defaultModelStats).daily_input_tokens = 1) := by
  constructor
  · intro s mname u now
    unfold recordEffect
    have hc := update_counters s mname u now
    exact ⟨hc.1, hc.2.1, hc.2.2.1, hc.2.2.2.1, update_lookup_self s mname u now,
      fun k hk => update_lookup_other s mname k u now hk⟩
  · exact scenarioB_facts

/-- Witness for C2: the general record contract applied to a concrete
one-call store. -/
theorem claim2_record_usage_spec_witness :
    recordEffect (initUsageData ⟨1, 0⟩) "model-x" ⟨some 1, some 2, some 3⟩ ⟨1, 0⟩ :=
  claim2_record_usage_spec.1 (initUsageData ⟨1, 0⟩) "model-x" ⟨some 1, some 2, some 3⟩ ⟨1, 0⟩

/-- C3: if `now` is 40 days after the instant `t` at which the store was
last reconciled (all three `last_reset_*` at their `periodStart(P, t)`
boundaries), one `_reset_if_needed` call resets the daily, weekly and
monthly fields exactly once each, with every `last_reset_*` set to the
boundary computed from the final `now`, not from intermediate catch-up
boundaries. -/
theorem claim3_catchup_correctness (s : UsageData) (t now : DateTime)
    (h1 : 1 ≤ t.ordinal)
    (hd : s.last_reset_daily = get_period_start "daily" t)
    (hw : s.last_reset_weekly = get_period_start "weekly" t)
    (hm : s.last_reset_monthly = get_period_start "monthly" t)
    (hn : now.ordinal = t.ordinal + 40) :
    catchupEffect s now := by
  have hcd : condDaily s now := by
    unfold condDaily
    rw [hd, gps_daily_eq]
    unfold addDays dtLe
    left
    simp only
    omega
  have hcw : condWeekly s now := by
    unfold condWeekly
    rw [hw, gps_weekly_eq]
    unfold addDays dtLe
    left
    simp only
    unfold DateTime.weekday
    omega
  have hcm : condMonthly s now := by
    unfold condMonthly
    rw [hm]
    have hmm := (gps_monthly_fields t h1).1
    rw [hmm]
    unfold DateTime.month
    rw [hn]
    exact month_ne_of_add40 t.ordinal h1
  unfold catchupEffect
  rw [reset_if_needed_eq]
  simp only [if_pos hcd, if_pos hcw, if_pos hcm]
  have hmodels : (s.models.map fun p => (p.1, applyResets (condDaily s now) (condWeekly s now)
      (condMonthly s now) p.2))
      = s.models.map (fun p => (p.1, resetMonthly (resetWeekly (resetDaily p.2)))) := by
    apply List.map_congr_left
    intro p _
    have hap : applyResets (condDaily s now) (condWeekly s now) (condMonthly s now) p.2
        = resetMonthly (resetWeekly (resetDaily p.2)) := by
      unfold applyResets
      simp [hcd, hcw, hcm]
    rw [hap]
  rw [hmodels]

/-- Witness for C3: a fresh store reconciled at day 1 and revisited 40 days
later rolls all three periods over in one call. -/
theorem claim3_catchup_correctness_witness :
    catchupEffect (initUsageData ⟨1, 0⟩) ⟨41, 0⟩ :=
  claim3_catchup_correctness (initUsageData ⟨1, 0⟩) ⟨1, 0⟩ ⟨41, 0⟩ (by decide)
    rfl rfl rfl (by decide)

/-- C4: running `_reset_if_needed` twice with the same `now` gives the same
state as running it once, and when no period boundary has been crossed one
run leaves the state unchanged. -/
theorem claim4_reconcile_idempotent (s : UsageData) (now : DateTime)
    (h : 1 ≤ now.ordinal) : reconcileIdemAt s now :=
  ⟨reset_of_no_cond (reset_if_needed s now) now (condDaily_after s now)
      (condWeekly_after s now) (condMonthly_after s now h),
    fun hd hw hm => reset_of_no_cond s now hd hw hm⟩

/-- Witness for C4: idempotence at a concrete fresh store. -/
theorem claim4_reconcile_idempotent_witness :
    1 ≤ (⟨40, 5⟩ : DateTime).ordinal ∧ reconcileIdemAt (initUsageData ⟨40, 5⟩) ⟨40, 5⟩ :=
  ⟨by decide, claim4_reconcile_idempotent (initUsageData ⟨40, 5⟩) ⟨40, 5⟩ (by decide)⟩

/-- C5: when exactly one period's reset condition holds, `_reset_if_needed`
zeroes exactly that period's request counter and per-model token fields and
updates exactly that period's `last_reset_*`, leaving the other two
periods' fields, all lifetime counters, and the set of model keys
unchanged. -/
theorem claim5_window_isolation (s : UsageData) (now : DateTime) :
    (condDaily s now → ¬ condWeekly s now → ¬ condMonthly s now → dailyOnlyEffect s now) ∧
      (¬ condDaily s now → condWeekly s now → ¬ condMonthly s now → weeklyOnlyEffect s now) ∧
      (¬ condDaily s now → ¬ condWeekly s now → condMonthly s now → monthlyOnlyEffect s now) := by
  have hreq := reset_requests s now
  have hpres := reset_preserves_lifetime s now
  refine ⟨?_, ?_, ?_⟩
  · intro hd hw hm
    unfold dailyOnlyEffect
    refine ⟨?_, ?_, ?_, hpres.1, ?_, ?_, ?_, ?_, hpres.2.2, ?_⟩
    · rw [hreq.1, if_pos hd]
    · rw [reset_lrd, if_pos hd]
    · intro k
      rw [(triple_after_reset s now k).1, if_pos hd]
    · rw [hreq.2.1, if_neg hw]
    · rw [hreq.2.2, if_neg hm]
    · rw [reset_lrw, if_neg hw]
    · rw [reset_lrm, if_neg hm]
    · intro k
      exact ⟨hpres.2.1 k,
        by rw [(triple_after_reset s now k).2.1, if_neg hw],
        by rw [(triple_after_reset s now k).2.2, if_neg hm]⟩
  · intro hd hw hm
    unfold weeklyOnlyEffect
    refine ⟨?_, ?_, ?_, hpres.1, ?_, ?_, ?_, ?_, hpres.2.2, ?_⟩
    · rw [hreq.2.1, if_pos hw]
    · rw [reset_lrw, if_pos hw]
    · intro k
      rw [(triple_after_reset s now k).2.1, if_pos hw]
    · rw [hreq.1, if_neg hd]
    · rw [hreq.2.2, if_neg hm]
    · rw [reset_lrd, if_neg hd]
    · rw [reset_lrm, if_neg hm]
    · intro k
      exact ⟨hpres.2.1 k,
        by rw [(triple_after_reset s now k).1, if_neg hd],
        by rw [(triple_after_reset s now k).2.2, if_neg hm]⟩
  · intro hd hw hm
    unfold monthlyOnlyEffect
    refine ⟨?_, ?_, ?_, hpres.1, ?_, ?_, ?_, ?_, hpres.2.2, ?_⟩
    · rw [hreq.2.2, if_pos hm]
    · rw [reset_lrm, if_pos hm]
    · intro k
      rw [(triple_after_reset s now k).2.2, if_pos hm]
    · rw [hreq.1, if_neg hd]
    · rw [hreq.2.1, if_neg hw]
    · rw [reset_lrd, if_neg hd]
    · rw [reset_lrw, if_neg hw]
    · intro k
      exact ⟨hpres.2.1 k,
        by rw [(triple_after_reset s now k).1, if_neg hd],
        by rw [(triple_after_reset s now k).2.1, if_neg hw]⟩

/-- Witness for C5: a daily-only rollover, a weekly-only rollover and a
monthly-only rollover at concrete stores. -/
theorem claim5_window_isolation_witness :
    dailyOnlyEffect ⟨0, 3, 3, 3, ⟨2, 0⟩, ⟨2, 0⟩, ⟨1, 0⟩,
        [("m", ⟨1, 1, 1, 1, 1, 1, 1, 1, 1, 1, 1, 1⟩)]⟩ ⟨3, 0⟩ ∧
      weeklyOnlyEffect ⟨0, 3, 3, 3, ⟨8, 0⟩, ⟨1, 0⟩, ⟨1, 0⟩,
        [("m", ⟨1, 1, 1, 1, 1, 1, 1, 1, 1, 1, 1, 1⟩)]⟩ ⟨8, 5⟩ ∧
      monthlyOnlyEffect ⟨0, 3, 3, 3, ⟨32, 0⟩, ⟨30, 0⟩, ⟨1, 0⟩,
        [("m", ⟨1, 1, 1, 1, 1, 1, 1, 1, 1, 1, 1, 1⟩)]⟩ ⟨32, 5⟩ :=
  ⟨(claim5_window_isolation _ ⟨3, 0⟩).1 (by decide) (by decide) (by decide),
    (claim5_window_isolation _ ⟨8, 5⟩).2.1 (by decide) (by decide) (by decide),
    (claim5_window_isolation _ ⟨32, 5⟩).2.2 (by decide) (by decide) (by decide)⟩

/-- C6: lifetime counters are never reset or decreased by any store
operation, and over any finite sequence of reports with usage metadata
`total_requests` equals the number of calls while each model's lifetime
token fields equal the sums of the increments reported for that model. -/
theorem claim6_lifetime_monotone :
    (∀ (s : UsageData) (now : DateTime),
        (reset_if_needed s now).total_requests = s.total_requests ∧
          ∀ k, lifetimeTriple (reset_if_needed s now) k = lifetimeTriple s k) ∧
      (∀ (s : UsageData) (mname : String) (r : ApiResult) (now : DateTime),
        s.total_requests ≤ (update_usage_stats s mname r now).total_requests ∧
          ∀ k, lifetimeIn s k ≤ lifetimeIn (update_usage_stats s mname r now) k ∧
            lifetimeOut s k ≤ lifetimeOut (update_usage_stats s mname r now) k ∧
            lifetimeTot s k ≤ lifetimeTot (update_usage_stats s mname r now) k) ∧
      (∀ (now0 : DateTime) (calls : List CallRec),
        (runCalls (initUsageData now0) calls).total_requests = calls.length ∧
          ∀ mname : String,
            lifetimeIn (runCalls (initUsageData now0) calls) mname
                = sumTokFor promptTok mname calls ∧
              lifetimeOut (runCalls (initUsageData now0) calls) mname
                = sumTokFor candTok mname calls ∧
              lifetimeTot (runCalls (initUsageData now0) calls) mname
                = sumTokFor totTok mname calls) := by
  refine ⟨?_, ?_, ?_⟩
  · intro s now
    exact ⟨(reset_preserves_lifetime s now).1, (reset_preserves_lifetime s now).2.1⟩
  · intro s mname r now
    obtain ⟨um⟩ := r
    cases um with
    | none => exact ⟨Nat.le_refl _, fun k => ⟨Nat.le_refl _, Nat.le_refl _, Nat.le_refl _⟩⟩
    | some u =>
      have hc := (update_counters s mname u now).1
      have hp := (reset_preserves_lifetime s now).1
      constructor
      · omega
      · intro k
        obtain ⟨h1, h2, h3⟩ := update_lifetime_scalar s mname u now k
        by_cases hk : k = mname
        · rw [if_pos hk] at h1 h2 h3
          refine ⟨?_, ?_, ?_⟩ <;> omega
        · rw [if_neg hk] at h1 h2 h3
          refine ⟨?_, ?_, ?_⟩ <;> omega
  · intro now0 calls
    have h := runCalls_spec calls (initUsageData now0)
    constructor
    · rw [h.1]
      show 0 + calls.length = calls.length
      omega
    · intro mname
      obtain ⟨h1, h2, h3⟩ := h.2 mname
      have hz1 : lifetimeIn (initUsageData now0) mname = 0 := rfl
      have hz2 : lifetimeOut (initUsageData now0) mname = 0 := rfl
      have hz3 : lifetimeTot (initUsageData now0) mname = 0 := rfl
      rw [h1, h2, h3, hz1, hz2, hz3]
      refine ⟨?_, ?_, ?_⟩ <;> omega

/-- C7: `get_period_start` truncates the time of day for the daily tag,
backs up `weekday()` days (Monday = 0) to the Monday 00:00:00 of the
current week for the weekly tag, moves to day 1 at 00:00:00 of the current
month for the monthly tag, and returns `now` unchanged for any other tag. -/
theorem claim7_period_start (now : DateTime) (h : 1 ≤ now.ordinal) :
    periodStartSpec now := by
  unfold periodStartSpec
  obtain ⟨hm1, hm2, hm3, hm4⟩ := gps_monthly_fields now h
  refine ⟨gps_daily_eq now, gps_weekly_eq now, gps_weekly_monday now h, ?_, ?_,
    hm1, hm2, hm3, hm4, ?_⟩
  · rw [gps_weekly_eq]
    simp only
    omega
  · rw [gps_weekly_eq]
    simp only
    unfold DateTime.weekday
    omega
  · intro p hp1 hp2 hp3
    unfold get_period_start
    rw [if_neg hp1, if_neg hp2, if_neg hp3]

/-- Witness for C7: the period-start contract at a concrete instant. -/
theorem claim7_period_start_witness :
    1 ≤ (⟨40, 5⟩ : DateTime).ordinal ∧ periodStartSpec ⟨40, 5⟩ :=
  ⟨by decide, claim7_period_start ⟨40, 5⟩ (by decide)⟩

/-- C8 counterexample: the claim "no read of the snapshot changes the
store's state, including the set of keys of models" is false at a concrete
input: a sensor's `native_value` read for a model with no entry goes
through the `models` defaultdict, whose `__getitem__` inserts an all-zero
entry, so the read mutates the store and adds the key. -/
theorem claim8_counterexample :
    ¬ ((sensor_native_value (initUsageData ⟨1, 0⟩) "model-x" "input").2
        = initUsageData ⟨1, 0⟩) ∧
      dictKeys (sensor_native_value (initUsageData ⟨1, 0⟩) "model-x" "input").2.models
        = ["model-x"] := by
  decide

/-- C8 (amended): a sensor read for a model that already has an entry
leaves the store unchanged; the scheduled snapshot refresh never changes
the set of model keys; and a `recordUsage` report adds the key of its model
exactly when that key is absent (appending it at the end).  A sensor read
for an absent model, however, inserts an all-zero entry through the
defaultdict (see the counterexample). -/
theorem claim8_read_only_amended :
    (∀ (s : UsageData) (mname tk : String),
        (dictLookup s.models mname).isSome = true → (sensor_native_value s mname tk).2 = s) ∧
      (∀ (s : UsageData) (now : DateTime),
        dictKeys (async_update_data s now).models = dictKeys s.models) ∧
      (∀ (s : UsageData) (mname : String) (u : UsageMetadata) (now : DateTime),
        dictKeys (update_usage_stats s mname ⟨some u⟩ now).models
          = (if (dictLookup s.models mname).isSome then dictKeys s.models
             else dictKeys s.models ++ [mname])) :=
  ⟨fun s mname tk h => sensor_pure s mname tk h,
    fun s now => (reset_preserves_lifetime s now).2.2,
    fun s mname u now => update_keys s mname u now⟩

/-- Witness for C8 (amended): a present-model sensor read at a concrete
store is pure. -/
theorem claim8_read_only_amended_witness :
    (dictLookup sampleStoreX.models "model-x").isSome = true ∧
      (sensor_native_value sampleStoreX "model-x" "input").2 = sampleStoreX :=
  ⟨by decide, claim8_read_only_amended.1 sampleStoreX "model-x" "input" (by decide)⟩

/-- C9: because the monthly rollover check compares only month numbers,
when `now` falls in the same-numbered calendar month of a later year than
`last_reset_monthly`, `_reset_if_needed` leaves `monthly_requests`,
`last_reset_monthly` and every model's monthly token fields unchanged,
even though a monthly boundary has been crossed. -/
theorem claim9_monthly_same_month_skip (s : UsageData) (now : DateTime)
    (h1 : now.month = s.last_reset_monthly.month)
    (h2 : s.last_reset_monthly.year < now.year) :
    monthlySkipEffect s now := by
  have hm : ¬ condMonthly s now := by
    unfold condMonthly
    simp [h1]
  unfold monthlySkipEffect
  refine ⟨?_, ?_, ?_⟩
  · rw [(reset_requests s now).2.2, if_neg hm]
  · rw [reset_lrm, if_neg hm]
  · intro k
    rw [(triple_after_reset s now k).2.2, if_neg hm]

/-- Witness for C9: last monthly reset in January of year 1, `now` in
January of year 2 (ordinal 380 = year 2, Jan 15): nothing monthly is
reset. -/
theorem claim9_monthly_same_month_skip_witness :
    (⟨380, 5⟩ : DateTime).month
        = (⟨0, 0, 0, 5, ⟨380, 0⟩, ⟨380, 0⟩, ⟨1, 0⟩,
            [("m", ⟨1, 1, 1, 1, 1, 1, 1, 1, 1, 1, 1, 1⟩)]⟩ :
          UsageData).last_reset_monthly.month ∧
      ((⟨0, 0, 0, 5, ⟨380, 0⟩, ⟨380, 0⟩, ⟨1, 0⟩,
            [("m", ⟨1, 1, 1, 1, 1, 1, 1, 1, 1, 1, 1, 1⟩)]⟩ :
          UsageData).last_reset_monthly.year < (⟨380, 5⟩ : DateTime).year) ∧
      monthlySkipEffect ⟨0, 0, 0, 5, ⟨380, 0⟩, ⟨380, 0⟩, ⟨1, 0⟩,
        [("m", ⟨1, 1, 1, 1, 1, 1, 1, 1, 1, 1, 1, 1⟩)]⟩ ⟨380, 5⟩ :=
  ⟨by decide, by decide,
    claim9_monthly_same_month_skip _ ⟨380, 5⟩ (by decide) (by decide)⟩

/-- C10: when the result carries a `usage_metadata` attribute, the call is
recorded even if some or all token-count fields are missing: the four
request counters are still incremented, the model's entry is still created,
and each missing count is treated as 0 (a zero-token record); only a result
with no `usage_metadata` attribute at all leaves the state unchanged. -/
theorem claim10_missing_metadata :
    (∀ (s : UsageData) (mname : String) (u : UsageMetadata) (now : DateTime),
        (update_usage_stats s mname ⟨some u⟩ now).total_requests
            = (reset_if_needed s now).total_requests + 1 ∧
          (update_usage_stats s mname ⟨some u⟩ now).daily_requests
            = (reset_if_needed s now).daily_requests + 1 ∧
          (update_usage_stats s mname ⟨some u⟩ now).weekly_requests
            = (reset_if_needed s now).weekly_requests + 1 ∧
          (update_usage_stats s mname ⟨some u⟩ now).monthly_requests
            = (reset_if_needed s now).monthly_requests + 1 ∧
          (dictLookup (update_usage_stats s mname ⟨some u⟩ now).models mname).isSome = true) ∧
      (∀ (s : UsageData) (mname : String) (now : DateTime), zeroRecordEffect s mname now) ∧
      (∀ (s : UsageData) (mname : String) (now : DateTime),
        update_usage_stats s mname ⟨none⟩ now = s) := by
  refine ⟨?_, ?_, ?_⟩
  · intro s mname u now
    have hc := update_counters s mname u now
    refine ⟨hc.1, hc.2.1, hc.2.2.1, hc.2.2.2.1, ?_⟩
    rw [update_lookup_self s mname u now]
    rfl
  · intro s mname now
    exact zeroRecord s mname now
  · intro s mname now
    exact update_none_eq s mname now
